import Mathlib

/-!
Shallow embedding of `demo_apps/live_object_detection_app.py` (the live
camera client of the vlm-playground repository): the coordinate
normalizer `_to_xy`, the overlay drawing helpers, and the dispatch
coordinator around `_try_send_frame` / `worker` / `_render`.

Python numbers (int/float) are modelled as rationals; dicts holding the
heterogeneous point records are modelled as a structure of optional
fields, one per recognized key.
-/

namespace LiveApp

instance {ε α : Type} [DecidableEq ε] [DecidableEq α] : DecidableEq (Except ε α) := fun a b =>
  match a, b with
  | Except.ok x, Except.ok y =>
      if h : x = y then isTrue (by rw [h]) else isFalse (by intro hc; injection hc; exact h (by assumption))
  | Except.error x, Except.error y =>
      if h : x = y then isTrue (by rw [h]) else isFalse (by intro hc; injection hc; exact h (by assumption))
  | Except.ok _, Except.error _ => isFalse (by intro hc; injection hc)
  | Except.error _, Except.ok _ => isFalse (by intro hc; injection hc)

/-- The flat part of a point record: the optional numeric values stored
under the keys `x`, `cx`, `px`, `y`, `cy`, `py`.  A field is `none` when
the key is absent from the dict. -/
structure FlatRec where
  x : Option ℚ := none
  cx : Option ℚ := none
  px : Option ℚ := none
  y : Option ℚ := none
  cy : Option ℚ := none
  py : Option ℚ := none
deriving DecidableEq

/-- The value stored under the `point` key, if any: the source only
unwraps it when it is a dict (`isinstance(p["point"], dict)`), so we
distinguish a dict value from a non-dict value. -/
inductive NestedField where
  | absent
  | dictVal (r : FlatRec)
  | otherVal
deriving DecidableEq

/-- A heterogeneous point record as received from the server. -/
structure PointRec where
  flat : FlatRec := {}
  point : NestedField := NestedField.absent
deriving DecidableEq

/-- `p.get("x", p.get("cx", p.get("px", None)))` (line 47). -/
def lookupX (f : FlatRec) : Option ℚ :=
  (f.x.orElse fun _ => (f.cx.orElse fun _ => f.px))

/-- `p.get("y", p.get("cy", p.get("py", None)))` (line 48). -/
def lookupY (f : FlatRec) : Option ℚ :=
  (f.y.orElse fun _ => (f.cy.orElse fun _ => f.py))

/-- The dict that the key lookups run on after the nested-`point`
unwrap of lines 45-46: the nested dict when `point` maps to a dict,
the record itself otherwise. -/
def effRec (p : PointRec) : FlatRec :=
  match p.point with
  | NestedField.dictVal r => r
  | _ => p.flat

/-- Python's builtin `min` on two numbers. -/
def pmin (a b : ℚ) : ℚ := if a ≤ b then a else b

/-- Python's builtin `max` on two numbers. -/
def pmax (a b : ℚ) : ℚ := if b ≤ a then a else b

/-- `_to_xy` (lines 41-58): unwrap a nested `point` dict, read the first
present alias of each coordinate, raise `ValueError` when either is
missing, scale by the image size when `max(x, y) <= 1.0`, and clamp each
axis to `[0, dim - 1]`.  The raised `ValueError` is modelled as
`Except.error`. -/
def to_xy (p : PointRec) (image_size : ℕ × ℕ) : Except String (ℚ × ℚ) :=
  let f := effRec p
  match lookupX f, lookupY f with
  | some x, some y =>
      let W : ℚ := image_size.1
      let H : ℚ := image_size.2
      let xy : ℚ × ℚ := if pmax x y ≤ 1 then (x * W, y * H) else (x, y)
      Except.ok (pmax 0 (pmin xy.1 (W - 1)), pmax 0 (pmin xy.2 (H - 1)))
  | _, _ => Except.error "Unsupported point format"

/-- The record of the spec scenario with both coordinates `0.5`. -/
def halfRec : PointRec := { flat := { x := some (1/2), y := some (1/2) } }

/-- The record of the spec scenario with absolute coordinates `cx=700, cy=10`. -/
def cx700Rec : PointRec := { flat := { cx := some 700, cy := some 10 } }

/-- A record with both normalized coordinates equal to `1`, the upper
corner of the normalized square. -/
def unitCornerRec : PointRec := { flat := { x := some 1, y := some 1 } }

/-- Both keys of one of the pairs `x/y`, `cx/cy`, `px/py` are present. -/
def flatHasPair (f : FlatRec) : Bool :=
  (f.x.isSome && f.y.isSome) || (f.cx.isSome && f.cy.isSome) || (f.px.isSome && f.py.isSome)

/-- The claim's input condition, following its words: the record
contains one of the recognized key pairs `x/y`, `cx/cy`, `px/py`, either
at top level or inside a nested `point` dict. -/
def hasRecognizedPair (p : PointRec) : Bool :=
  flatHasPair p.flat ||
    (match p.point with
     | NestedField.dictVal r => flatHasPair r
     | _ => false)

/-- The normalized points produced by the loop of `_draw_points`
(lines 230-277): each record is normalized inside a `try`; a record on
which `_to_xy` raises is skipped (`except Exception: continue`) and the
loop moves on to the next record. -/
def drawPointsList : List PointRec → ℕ × ℕ → List (ℚ × ℚ)
  | [], _ => []
  | p :: ps, sz =>
    match to_xy p sz with
    | Except.ok xy => xy :: drawPointsList ps sz
    | Except.error _ => drawPointsList ps sz

/-- A record with a mixed pair of aliases: `x` and `cy`. -/
def mixedAliasRec : PointRec := { flat := { x := some 5, cy := some 7 } }

/-- A record providing `x` but no alias of `y` at all. -/
def onlyXRec : PointRec := { flat := { x := some 5 } }

/-- `max_chars = max(10, int((W / 2) / 12))` (line 163): the wrap width
used for a frame of width `W`; `int((W / 2) / 12)` equals `⌊W / 24⌋`. -/
def maxChars (W : ℕ) : ℕ := max 10 (W / 24)

/-- Whitespace as `textwrap` collapses it before wrapping. -/
def isSpaceChar (c : Char) : Bool := c = ' ' || c = '\n' || c = '\t' || c = '\r'

/-- Split a caption into its whitespace-separated words. -/
def splitWordsAux : List Char → List Char → List (List Char)
  | [], acc => if acc.isEmpty then [] else [acc.reverse]
  | c :: cs, acc =>
    if isSpaceChar c then
      if acc.isEmpty then splitWordsAux cs [] else acc.reverse :: splitWordsAux cs []
    else splitWordsAux cs (c :: acc)

/-- The words of a caption. -/
def splitWords (s : String) : List (List Char) := splitWordsAux s.toList []

/-- Greedy line filling as done by `textwrap.wrap` with its default
options: words are packed onto the current line while they fit (one
separating space each), a word longer than the whole width is broken
into width-sized chunks, and a word that does not fit closes the
current line. `cur` is the line being filled. -/
def wrapWords (width : ℕ) : List (List Char) → List Char → List (List Char)
  | [], cur => if cur.isEmpty then [] else [cur]
  | w :: ws, [] =>
      if w.length ≤ width then wrapWords width ws w
      else if width = 0 then w :: wrapWords width ws []
      else w.take width :: wrapWords width (w.drop width :: ws) []
  | w :: ws, c :: cur =>
      if (c :: cur).length + 1 + w.length ≤ width then
        wrapWords width ws (c :: cur ++ ' ' :: w)
      else (c :: cur) :: wrapWords width (w :: ws) []
termination_by ws cur => (ws.foldr (fun w acc => w.length + 1 + acc) 0, cur.length)

/-- `textwrap.wrap(self.last_caption, width=max_chars)` (line 164),
modelling the external `textwrap` collaborator. -/
def wrapCaption (width : ℕ) (s : String) : List (List Char) :=
  wrapWords width (splitWords s) []

/-- The caption drawing loop (lines 166-192): line `i` is drawn with
baseline `y = 28 + i * 32`; the loop breaks at the first line whose
baseline satisfies `y > H - 10` and never draws it or any later line.
The result lists the (index, line) pairs actually drawn. -/
def drawCaptionLoop (H : ℤ) : List (List Char) → ℕ → List (ℕ × List Char)
  | [], _ => []
  | l :: ls, i =>
    if 28 + (i : ℤ) * 32 > H - 10 then []
    else (i, l) :: drawCaptionLoop H ls (i + 1)

/-- A captured camera frame: the pixel contents are abstracted to a
tag, alongside the frame's width and height. -/
structure Frame where
  w : ℕ
  h : ℕ
  data : ℕ
deriving DecidableEq

/-- The mutable UI configuration variables read by the coordinator:
`api_var`, `endpoint_var`, `label_var` and `length_var`. -/
structure Config where
  api : String
  endpoint : String
  label : String
  lengthSel : String
deriving DecidableEq

/-- The values captured by `_try_send_frame` at dispatch time and
closed over by `worker` (lines 286-296): API base, endpoint, label,
caption length and the encoded frame snapshot. -/
structure Pending where
  api : String
  ep : String
  label : String
  lengthSel : String
  img : Frame
deriving DecidableEq

/-- The snapshot of lines 286-296, taken from the configuration and the
current frame as they are at the moment of the call. -/
def pendingOf (c : Config) (f : Frame) : Pending :=
  { api := c.api, ep := c.endpoint, label := c.label,
    lengthSel := c.lengthSel, img := f }

/-- `api_base.rstrip("/")` (lines 16 and 29). -/
def rstripSlash (s : String) : String :=
  String.mk ((s.toList.reverse.dropWhile (fun c => c = '/')).reverse)

/-- The HTTP request a worker issues, as built by `_post_point`
(lines 15-22) or `_post_caption` (lines 28-35) purely from the captured
dispatch values. -/
structure HttpRequest where
  url : String
  formKey : String
  formValue : String
  fileBytes : Frame
deriving DecidableEq

/-- Which request the worker for snapshot `d` sends. -/
def requestOf (d : Pending) : HttpRequest :=
  if d.ep = "point" then
    { url := rstripSlash d.api ++ "/point", formKey := "label",
      formValue := d.label, fileBytes := d.img }
  else
    { url := rstripSlash d.api ++ "/caption", formKey := "length",
      formValue := d.lengthSel, fileBytes := d.img }

/-- The mutable state of `CameraPointApp` relevant to dispatching,
together with the at-most-one outstanding worker thread (line 315),
represented by the intent snapshot it closed over. -/
structure AppState where
  cfg : Config
  inFlight : Bool
  lastPoints : Option (List PointRec)
  lastCaption : Option String
  status : String
  currentFrame : Option Frame
  lastFrameSize : ℕ × ℕ
  displayed : Option Frame
  outstanding : Option Pending
deriving DecidableEq

/-- `_try_send_frame` (lines 279-315): a no-op when no frame was ever
captured (`hasattr` guard, lines 280-281) or while a request is in
flight (lines 282-283); otherwise it snapshots the frame and the
configuration, sets the in-flight flag and the status, and starts the
worker, modelled by `outstanding`. -/
def try_send_frame (s : AppState) (initial : Bool) : AppState :=
  match s.currentFrame with
  | none => s
  | some f =>
    if s.inFlight then s
    else
      { s with
        inFlight := true,
        status := if initial then "Bootstrapping…" else "Sending…",
        outstanding := some (pendingOf s.cfg f) }

/-- The body of `worker` (lines 298-313) completing the dispatch `d`.
The Remote Inference Client is an oracle parameter: `pointResp` is the
outcome of `_post_point` and `captionResp` of `_post_caption`, an
exception being the `Except.error` case.  The `finally` clause
(line 313) clears the in-flight flag, and the thread terminates, so
`outstanding` becomes `none`. -/
def workerStep (s : AppState) (d : Pending)
    (pointResp : Except String (List PointRec))
    (captionResp : Except String String) : AppState :=
  let s1 :=
    if d.ep = "point" then
      match pointResp with
      | Except.ok pts =>
          { s with lastPoints := some pts, lastCaption := none,
                   status := "OK (" ++ toString pts.length ++ " point(s))" }
      | Except.error e => { s with status := "Error: " ++ e }
    else
      match captionResp with
      | Except.ok c =>
          { s with lastCaption := some c, lastPoints := none,
                   status := "OK (caption)" }
      | Except.error e => { s with status := "Error: " ++ e }
  { s1 with inFlight := false, outstanding := none }

/-- `_render` (lines 145-220), the capture read being an oracle where
`none` models `ok == False`.  On read failure the tick publishes
"Camera read failed" and returns before updating anything else
(lines 147-149); on success it stores the frame, composites and
displays it, and calls `_try_send_frame` when no request is in flight
(lines 218-220).  The second component records whether
`_try_send_frame` was invoked on this tick. -/
def renderTick (s : AppState) (cap : Option Frame) : AppState × Bool :=
  match cap with
  | none => ({ s with status := "Camera read failed" }, false)
  | some f =>
    let s1 :=
      { s with
        currentFrame := some f, lastFrameSize := (f.w, f.h), displayed := some f }
    if s1.inFlight then (s1, false)
    else (try_send_frame s1 false, true)

/-- A UI edit: the user changes any of the configuration variables. -/
def setConfig (s : AppState) (c : Config) : AppState := { s with cfg := c }

/-- The state right after `__init__` (lines 65-123): idle, no results,
the default configuration; the constructor's immediate
`_try_send_frame` call is a no-op because no frame has been captured
yet. -/
def initialState : AppState :=
  { cfg := { api := "http://localhost:9999", endpoint := "point",
             label := "human", lengthSel := "short" },
    inFlight := false, lastPoints := none, lastCaption := none,
    status := "Idle", currentFrame := none, lastFrameSize := (1, 1),
    displayed := none, outstanding := none }

/-- One interleaving step of the application: a render tick, a dispatch
attempt, a UI edit, or the completion of the outstanding worker. -/
inductive AppStep : AppState → AppState → Prop where
  | tick (s : AppState) (cap : Option Frame) : AppStep s (renderTick s cap).1
  | send (s : AppState) (initial : Bool) : AppStep s (try_send_frame s initial)
  | uiEdit (s : AppState) (c : Config) : AppStep s (setConfig s c)
  | complete (s : AppState) (d : Pending) (pr : Except String (List PointRec))
      (cr : Except String String) :
      s.outstanding = some d → AppStep s (workerStep s d pr cr)

/-- States reachable from the freshly constructed application. -/
def Reachable (s : AppState) : Prop :=
  Relation.ReflTransGen AppStep initialState s

/-- A concrete 640×480 frame. -/
def f640 : Frame := { w := 640, h := 480, data := 0 }

/-- The initial state after one successful capture: idle with a current
frame, so a dispatch attempt would fire. -/
def readyState : AppState := { initialState with currentFrame := some f640 }

/-- A state with a request in flight and a previously stored result. -/
def busyPointState : AppState :=
  { readyState with
    inFlight := true,
    outstanding := some (pendingOf initialState.cfg f640),
    lastPoints := some [halfRec],
    status := "Sending…" }

/-- A concrete caption-mode dispatch snapshot. -/
def capPending : Pending :=
  { api := "http://localhost:9999", ep := "caption", label := "human",
    lengthSel := "short", img := f640 }

/-- One drawing primitive composited onto a pixel buffer by the
renderer: the marker-and-label group drawn per point by `_draw_points`,
one wrapped caption line, or the fixed informational note of
lines 194-209. -/
inductive DrawOp where
  | pointMarker (x y : ℚ) (label : String)
  | captionLine (i : ℕ) (line : List Char)
  | note
deriving DecidableEq

/-- A pixel buffer with its object identity: `bid` identifies the
underlying array (`frame.copy()` allocates a new one) and `ops` lists
the annotations drawn into that array so far. -/
structure Buffer where
  bid : ℕ
  ops : List DrawOp
deriving DecidableEq

/-- `_draw_points` (lines 222-277) at the buffer level: with a falsy
`points` argument (`None` or the empty list) the input frame object
itself is returned (lines 225-226, no copy); otherwise the markers are
drawn into a fresh copy (line 227) whose new identity is `freshId`. -/
def draw_points (frame : Buffer) (freshId : ℕ) (points : Option (List PointRec))
    (label : String) (sz : ℕ × ℕ) : Buffer :=
  match points with
  | none => frame
  | some [] => frame
  | some (p :: ps) =>
      { bid := freshId,
        ops := frame.ops ++ (drawPointsList (p :: ps) sz).map
          (fun xy => DrawOp.pointMarker xy.1 xy.2 label) }

/-- The caption-mode annotations of `_render` (lines 160-192): a falsy
caption (`None` or the empty string) draws nothing; otherwise the
wrapped lines surviving the vertical bound are drawn. -/
def captionOps (caption : Option String) (sz : ℕ × ℕ) : List DrawOp :=
  match caption with
  | none => []
  | some c =>
    if c = "" then []
    else (drawCaptionLoop (sz.2 : ℤ) (wrapCaption (maxChars sz.1) c) 0).map
      (fun il => DrawOp.captionLine il.1 il.2)

/-- The annotation phase of a render tick (lines 156-209) on the buffer
holding the captured frame: build `annotated` in the active mode —
point mode via `_draw_points`, caption mode via an unconditional
`frame.copy()` (line 160) — then draw the informational note into
`annotated` in place (lines 194-209 mutate whatever object `annotated`
names). -/
def renderAnnotated (frame : Buffer) (freshId : ℕ) (mode : String)
    (points : Option (List PointRec)) (caption : Option String)
    (label : String) (sz : ℕ × ℕ) : Buffer :=
  let annotated :=
    if mode = "point" then draw_points frame freshId points label sz
    else { bid := freshId, ops := frame.ops ++ captionOps caption sz }
  { annotated with ops := annotated.ops ++ [DrawOp.note] }

end LiveApp

namespace LiveApp

theorem pmin_eq_min (a b : ℚ) : pmin a b = min a b := (min_def a b).symm

theorem pmax_eq_max (a b : ℚ) : pmax a b = max a b := by
  by_cases h : b ≤ a
  · simp [pmax, h, max_eq_left h]
  · simp [pmax, h, max_eq_right (le_of_not_le h)]

/-- Clamping `pmax 0 (pmin a c)` lands in `[0, c]` whenever `0 ≤ c`. -/
theorem pmax_pmin_clamp (a c : ℚ) (hc : 0 ≤ c) :
    0 ≤ pmax 0 (pmin a c) ∧ pmax 0 (pmin a c) ≤ c := by
  rw [pmin_eq_min, pmax_eq_max]
  exact ⟨le_max_left 0 _, max_le hc (min_le_right a c)⟩

/-- Every line emitted by the greedy wrapper is at most `width`
characters long, provided `width ≥ 1` and the line under construction
fits. -/
theorem wrapWords_length_le (width : ℕ) (hw : 1 ≤ width) :
    ∀ ws cur, cur.length ≤ width → ∀ l ∈ wrapWords width ws cur, l.length ≤ width := by
  intro ws cur
  induction ws, cur using wrapWords.induct width with
  | case1 cur hcur =>
      intro _ l hl
      rw [wrapWords.eq_1, if_pos hcur] at hl
      simp at hl
  | case2 cur hcur =>
      intro hc l hl
      rw [wrapWords.eq_1, if_neg hcur] at hl
      rw [List.mem_singleton] at hl
      subst hl
      exact hc
  | case3 w ws hfit ih =>
      intro _ l hl
      rw [wrapWords.eq_2, if_pos hfit] at hl
      exact ih hfit l hl
  | case4 w ws hfit hz ih =>
      omega
  | case5 w ws hfit hz ih =>
      intro _ l hl
      rw [wrapWords.eq_2, if_neg hfit, if_neg hz, List.mem_cons] at hl
      rcases hl with rfl | hl
      · simp
      · exact ih (by simp) l hl
  | case6 w ws c cur hfit ih =>
      intro _ l hl
      rw [wrapWords.eq_3, if_pos hfit] at hl
      refine ih ?_ l hl
      refine le_trans (le_of_eq ?_) hfit
      simp
      omega
  | case7 w ws c cur hfit ih =>
      intro hc l hl
      rw [wrapWords.eq_3, if_neg hfit, List.mem_cons] at hl
      rcases hl with rfl | hl
      · exact hc
      · exact ih (by simp) l hl

/-- Membership in the caption drawing loop: a pair `(j, line)` is drawn
from start index `i` exactly when `line` sits `j - i` places into the
list and the baseline of line `j` is within the vertical bound. -/
theorem drawCaptionLoop_mem (H : ℤ) :
    ∀ (lines : List (List Char)) (i j : ℕ) (l : List Char),
      (j, l) ∈ drawCaptionLoop H lines i ↔
        (∃ k, lines.get? k = some l ∧ j = i + k ∧ 28 + (j : ℤ) * 32 ≤ H - 10) := by
  intro lines
  induction lines with
  | nil => intro i j l; simp [drawCaptionLoop]
  | cons hd tl ih =>
      intro i j l
      by_cases hb : 28 + (i : ℤ) * 32 > H - 10
      · rw [drawCaptionLoop, if_pos hb]
        simp only [List.not_mem_nil, false_iff]
        rintro ⟨k, hk, rfl, hble⟩
        have : (28 : ℤ) + (i : ℤ) * 32 ≤ 28 + ((i + k : ℕ) : ℤ) * 32 := by
          push_cast
          nlinarith [Int.ofNat_nonneg k]
        omega
      · rw [drawCaptionLoop, if_neg hb, List.mem_cons]
        constructor
        · rintro (h | h)
          · simp only [Prod.mk.injEq] at h
            obtain ⟨rfl, rfl⟩ := h
            exact ⟨0, by simp, by omega, by omega⟩
          · obtain ⟨k, hk, hj, hble⟩ := (ih (i + 1) j l).mp h
            exact ⟨k + 1, by simpa using hk, by omega, hble⟩
        · rintro ⟨k, hk, hj, hble⟩
          cases k with
          | zero =>
              left
              rw [List.get?_cons_zero] at hk
              injection hk with hk
              subst hk
              have : j = i := by omega
              subst this
              rfl
          | succ k =>
              right
              refine (ih (i + 1) j l).mpr ⟨k, ?_, by omega, hble⟩
              simpa using hk

/-- C9: every caption wrapped for a width-640 frame yields lines of at
most `max(10, (640/2)/12) = 26` characters, and the drawing loop on a
height-`H` frame draws exactly the wrapped lines whose baseline
`28 + 32·i` does not exceed `H - 10`, stopping at the first violating
line. -/
theorem caption_wrapping_bounds (caption : String) (H : ℤ) :
    (∀ l ∈ wrapCaption (maxChars 640) caption, l.length ≤ 26) ∧
    (∀ j l, (j, l) ∈ drawCaptionLoop H (wrapCaption (maxChars 640) caption) 0 ↔
      ((wrapCaption (maxChars 640) caption).get? j = some l ∧
        28 + (j : ℤ) * 32 ≤ H - 10)) := by
  have hm : maxChars 640 = 26 := by norm_num [maxChars]
  constructor
  · intro l hl
    have h26 :=
      wrapWords_length_le (maxChars 640) (by omega) (splitWords caption) [] (by simp) l hl
    omega
  · intro j l
    rw [drawCaptionLoop_mem]
    constructor
    · rintro ⟨k, hk, hj, hb⟩
      have : k = j := by omega
      subst this
      exact ⟨hk, hb⟩
    · rintro ⟨hk, hb⟩
      exact ⟨j, hk, by omega, hb⟩

/-- C9 witness: the caption `"ok"` wraps to the single line `ok`, whose
length is at most 26. -/
theorem caption_wrapping_bounds_witness : ("ok".toList).length ≤ 26 :=
  (caption_wrapping_bounds "ok" 480).1 "ok".toList
    (by simp +decide [wrapCaption, wrapWords, splitWords, splitWordsAux, isSpaceChar, maxChars])

/-- C4 (counterexample): the record with `x = 1, y = 1` has both
coordinates in `[0,1]`, yet `_to_xy` on a 640×480 frame returns the
clamped point `(639, 479)`, not `(x·width, y·height) = (640, 480)`. -/
theorem to_xy_unit_corner_clamped :
    (0:ℚ) ≤ 1 ∧ (1:ℚ) ≤ 1 ∧
    to_xy unitCornerRec (640, 480) = Except.ok (639, 479) ∧
    ((639:ℚ), (479:ℚ)) ≠ (((1:ℚ) * 640, (1:ℚ) * 480) : ℚ × ℚ) := by
  refine ⟨by norm_num, by norm_num, ?_, by norm_num⟩
  norm_num [to_xy, unitCornerRec, lookupX, lookupY, effRec, pmin, pmax, Option.orElse]

/-- C4 (amended): for a record whose looked-up coordinates `x, y` both
lie in `[0,1]`, `_to_xy` on a `W×H` frame returns exactly
`(x·W, y·H)` provided those products do not exceed `W-1` resp. `H-1`
(otherwise the final clamp lowers them to `dim-1`). -/
theorem to_xy_normalized_exact (p : PointRec) (W H : ℕ) (x y : ℚ)
    (hx : lookupX (effRec p) = some x) (hy : lookupY (effRec p) = some y)
    (hx0 : 0 ≤ x) (hx1 : x ≤ 1) (hy0 : 0 ≤ y) (hy1 : y ≤ 1)
    (hxW : x * W ≤ (W : ℚ) - 1) (hyH : y * H ≤ (H : ℚ) - 1) :
    to_xy p (W, H) = Except.ok (x * W, y * H) := by
  have hmax : pmax x y ≤ 1 := by rw [pmax_eq_max]; exact max_le hx1 hy1
  have hxnn : 0 ≤ x * (W : ℚ) := mul_nonneg hx0 (Nat.cast_nonneg W)
  have hynn : 0 ≤ y * (H : ℚ) := mul_nonneg hy0 (Nat.cast_nonneg H)
  simp only [to_xy, hx, hy]
  rw [if_pos hmax]
  simp only [pmin_eq_min, pmax_eq_max]
  rw [min_eq_left hxW, min_eq_left hyH, max_eq_right hxnn, max_eq_right hynn]

/-- C4 witness: the spec scenario `x = y = 0.5` on a 640×480 frame
yields exactly `(0.5·640, 0.5·480) = (320, 240)`. -/
theorem to_xy_normalized_exact_witness :
    to_xy halfRec (640, 480) = Except.ok ((1/2 : ℚ) * 640, (1/2 : ℚ) * 480) :=
  to_xy_normalized_exact halfRec 640 480 (1/2) (1/2)
    (by norm_num [halfRec, lookupX, effRec, Option.orElse])
    (by norm_num [halfRec, lookupY, effRec, Option.orElse])
    (by norm_num) (by norm_num) (by norm_num) (by norm_num)
    (by norm_num) (by norm_num)

/-- C5: whenever `_to_xy` succeeds on a `W×H` frame with `W, H ≥ 1`,
the returned point lies in `[0, W-1] × [0, H-1]`. -/
theorem to_xy_in_bounds (p : PointRec) (W H : ℕ) (x y : ℚ)
    (hW : 1 ≤ W) (hH : 1 ≤ H)
    (h : to_xy p (W, H) = Except.ok (x, y)) :
    0 ≤ x ∧ x ≤ (W : ℚ) - 1 ∧ 0 ≤ y ∧ y ≤ (H : ℚ) - 1 := by
  have hW1 : (0:ℚ) ≤ (W : ℚ) - 1 := by
    rw [sub_nonneg]; exact_mod_cast Nat.one_le_cast.mpr hW
  have hH1 : (0:ℚ) ≤ (H : ℚ) - 1 := by
    rw [sub_nonneg]; exact_mod_cast Nat.one_le_cast.mpr hH
  revert h
  cases hlx : lookupX (effRec p) with
  | none => simp [to_xy, hlx]
  | some a =>
    cases hly : lookupY (effRec p) with
    | none => simp [to_xy, hlx, hly]
    | some b =>
      simp only [to_xy, hlx, hly]
      intro h
      simp only [Except.ok.injEq, Prod.mk.injEq] at h
      obtain ⟨hx, hy⟩ := h
      subst hx; subst hy
      obtain ⟨h1, h2⟩ := pmax_pmin_clamp
        (if pmax a b ≤ 1 then (a * (W:ℚ), b * (H:ℚ)) else (a, b)).1 ((W:ℚ) - 1) hW1
      obtain ⟨h3, h4⟩ := pmax_pmin_clamp
        (if pmax a b ≤ 1 then (a * (W:ℚ), b * (H:ℚ)) else (a, b)).2 ((H:ℚ) - 1) hH1
      exact ⟨h1, h2, h3, h4⟩

/-- C6 (counterexample): the record holding only the keys `x` and `cy`
contains none of the recognized key pairs, yet `_to_xy` does not raise
on it (the key lookups fall back across aliases independently), and the
drawing loop keeps rather than drops it. -/
theorem mixed_alias_record_not_dropped :
    hasRecognizedPair mixedAliasRec = false ∧
    to_xy mixedAliasRec (640, 480) = Except.ok (5, 7) ∧
    drawPointsList [mixedAliasRec] (640, 480) = [(5, 7)] := by
  have h2 : to_xy mixedAliasRec (640, 480) = Except.ok (5, 7) := by
    norm_num [to_xy, mixedAliasRec, lookupX, lookupY, effRec, pmin, pmax, Option.orElse]
  exact ⟨rfl, h2, by simp [drawPointsList, h2]⟩

/-- C6 (amended): `_to_xy` raises its format error exactly when, after
the nested-`point` unwrap, no alias of `x` or no alias of `y` is
present; and the drawing batch is best-effort: a record on which
`_to_xy` raises is dropped while every record around it is still
processed, no error escaping the loop. -/
theorem draw_points_best_effort :
    (∀ p sz, (∃ e, to_xy p sz = Except.error e) ↔
      (lookupX (effRec p) = none ∨ lookupY (effRec p) = none)) ∧
    (∀ sz l1 l2 b e, to_xy b sz = Except.error e →
      drawPointsList (l1 ++ b :: l2) sz =
        drawPointsList l1 sz ++ drawPointsList l2 sz) := by
  constructor
  · intro p sz
    cases hlx : lookupX (effRec p) with
    | none => simp [to_xy, hlx]
    | some a =>
      cases hly : lookupY (effRec p) with
      | none => simp [to_xy, hlx, hly]
      | some b => simp [to_xy, hlx, hly]
  · intro sz l1 l2 b e hb
    induction l1 with
    | nil => simp [drawPointsList, hb]
    | cons p ps ih =>
      cases hp : to_xy p sz with
      | ok xy => simp [drawPointsList, hp, ih]
      | error e2 => simp [drawPointsList, hp, ih]

/-- C6 witness: in the batch `[halfRec, onlyXRec, cx700Rec]` the middle
record (which lacks every `y` alias) is dropped and the two records
around it are still drawn. -/
theorem draw_points_best_effort_witness :
    drawPointsList ([halfRec] ++ onlyXRec :: [cx700Rec]) (640, 480) =
      drawPointsList [halfRec] (640, 480) ++ drawPointsList [cx700Rec] (640, 480) :=
  draw_points_best_effort.2 (640, 480) [halfRec] [cx700Rec] onlyXRec
    "Unsupported point format"
    (by norm_num [to_xy, onlyXRec, lookupX, lookupY, effRec, Option.orElse])

/-- C5 witness: the spec scenario `cx=700, cy=10` on a 640×480 frame
succeeds with `(639, 10)`, which lies in `[0, 639] × [0, 479]`. -/
theorem to_xy_in_bounds_witness :
    (0:ℚ) ≤ 639 ∧ (639:ℚ) ≤ (640:ℕ) - 1 ∧ (0:ℚ) ≤ 10 ∧ (10:ℚ) ≤ (480:ℕ) - 1 :=
  to_xy_in_bounds cx700Rec 640 480 639 10 (by norm_num) (by norm_num)
    (by norm_num [to_xy, cx700Rec, lookupX, lookupY, effRec, pmin, pmax, Option.orElse])

theorem try_send_frame_noop (s : AppState) (initial : Bool) (h : s.inFlight = true) :
    try_send_frame s initial = s := by
  cases hcf : s.currentFrame with
  | none => simp [try_send_frame, hcf]
  | some f => simp [try_send_frame, hcf, h]

theorem try_send_frame_fires (s : AppState) (initial : Bool) (f : Frame)
    (hif : s.inFlight = false) (hcf : s.currentFrame = some f) :
    try_send_frame s initial =
      { s with inFlight := true,
               status := if initial then "Bootstrapping…" else "Sending…",
               outstanding := some (pendingOf s.cfg f) } := by
  simp [try_send_frame, hcf, hif]

theorem try_send_frame_slots (s : AppState) (initial : Bool) :
    (try_send_frame s initial).lastPoints = s.lastPoints ∧
    (try_send_frame s initial).lastCaption = s.lastCaption := by
  unfold try_send_frame
  cases s.currentFrame with
  | none => exact ⟨rfl, rfl⟩
  | some f => by_cases h : s.inFlight = true <;> simp [h]

theorem workerStep_flags (s : AppState) (d : Pending)
    (pr : Except String (List PointRec)) (cr : Except String String) :
    (workerStep s d pr cr).inFlight = false ∧
    (workerStep s d pr cr).outstanding = none :=
  ⟨rfl, rfl⟩

theorem workerStep_point_ok (s : AppState) (d : Pending) (pts : List PointRec)
    (cr : Except String String) (h : d.ep = "point") :
    workerStep s d (Except.ok pts) cr =
      { s with lastPoints := some pts, lastCaption := none,
               status := "OK (" ++ toString pts.length ++ " point(s))",
               inFlight := false, outstanding := none } := by
  simp [workerStep, h]

theorem workerStep_caption_ok (s : AppState) (d : Pending)
    (pr : Except String (List PointRec)) (c : String) (h : ¬ d.ep = "point") :
    workerStep s d pr (Except.ok c) =
      { s with lastCaption := some c, lastPoints := none,
               status := "OK (caption)", inFlight := false, outstanding := none } := by
  simp [workerStep, h]

theorem workerStep_error (s : AppState) (d : Pending)
    (pr : Except String (List PointRec)) (cr : Except String String) (e : String)
    (h : (d.ep = "point" ∧ pr = Except.error e) ∨
      (¬ d.ep = "point" ∧ cr = Except.error e)) :
    workerStep s d pr cr =
      { s with status := "Error: " ++ e, inFlight := false, outstanding := none } := by
  rcases h with ⟨hep, rfl⟩ | ⟨hep, rfl⟩ <;> simp [workerStep, hep]

/-- Every application step keeps the in-flight flag equal to the
existence of an outstanding worker. -/
theorem appStep_preserves_gate {s t : AppState} (h : AppStep s t)
    (hi : s.inFlight = s.outstanding.isSome) :
    t.inFlight = t.outstanding.isSome := by
  cases h with
  | tick cap =>
      cases cap with
      | none => simpa [renderTick] using hi
      | some f =>
          by_cases hf : s.inFlight = true
          · simpa [renderTick, hf] using hi
          · have hf2 : s.inFlight = false := by simpa using hf
            simp only [renderTick, hf2]
            rw [try_send_frame_fires _ false f rfl rfl]
            simp
  | send initial =>
      cases hcf : s.currentFrame with
      | none => simpa [try_send_frame, hcf] using hi
      | some f =>
          by_cases hf : s.inFlight = true
          · rw [try_send_frame_noop s initial hf]; exact hi
          · have hf2 : s.inFlight = false := by simpa using hf
            rw [try_send_frame_fires s initial f hf2 hcf]
            simp
  | uiEdit c => simpa [setConfig] using hi
  | complete d pr cr hd => rfl

/-- Every application step preserves mutual exclusivity of the two
result slots. -/
theorem appStep_preserves_mutex {s t : AppState} (h : AppStep s t)
    (hm : s.lastPoints = none ∨ s.lastCaption = none) :
    t.lastPoints = none ∨ t.lastCaption = none := by
  cases h with
  | tick cap =>
      cases cap with
      | none => simpa [renderTick] using hm
      | some f =>
          by_cases hf : s.inFlight = true
          · simpa [renderTick, hf] using hm
          · have hf2 : s.inFlight = false := by simpa using hf
            simp only [renderTick, hf2]
            rw [try_send_frame_fires _ false f rfl rfl]
            simpa using hm
  | send initial =>
      obtain ⟨h1, h2⟩ := try_send_frame_slots s initial
      rw [h1, h2]; exact hm
  | uiEdit c => simpa [setConfig] using hm
  | complete d pr cr hd =>
      by_cases hep : d.ep = "point"
      · cases pr with
        | ok pts => rw [workerStep_point_ok s d pts cr hep]; exact Or.inr rfl
        | error e =>
            rw [workerStep_error s d _ cr e (Or.inl ⟨hep, rfl⟩)]
            exact hm
      · cases cr with
        | ok c => rw [workerStep_caption_ok s d pr c hep]; exact Or.inl rfl
        | error e =>
            rw [workerStep_error s d pr _ e (Or.inr ⟨hep, rfl⟩)]
            exact hm

/-- C1: the single-flight gate.  (i) While the in-flight flag is set a
`_try_send_frame` call is a no-op: the state (hence also the set of
outstanding workers) is unchanged, so no network request is issued.
(ii) When idle with a captured frame, the call flips the flag
Idle→InFlight and starts exactly the snapshot worker.  (iii) The
completion handler, and only it, resets InFlight→Idle and retires the
worker.  (iv) Render ticks and UI edits never clear the flag.  (v) In
every reachable state the flag equals the existence of the
at-most-one outstanding worker. -/
theorem single_flight_gate :
    (∀ s initial, s.inFlight = true → try_send_frame s initial = s) ∧
    (∀ s initial f, s.inFlight = false → s.currentFrame = some f →
      (try_send_frame s initial).inFlight = true ∧
      (try_send_frame s initial).outstanding = some (pendingOf s.cfg f)) ∧
    (∀ s d pr cr, (workerStep s d pr cr).inFlight = false ∧
      (workerStep s d pr cr).outstanding = none) ∧
    (∀ s cap, s.inFlight = true → (renderTick s cap).1.inFlight = true ∧
      (renderTick s cap).1.outstanding = s.outstanding) ∧
    (∀ s c, (setConfig s c).inFlight = s.inFlight ∧
      (setConfig s c).outstanding = s.outstanding) ∧
    (∀ s, Reachable s → s.inFlight = s.outstanding.isSome) := by
  refine ⟨try_send_frame_noop, ?_, workerStep_flags, ?_, fun s c => ⟨rfl, rfl⟩, ?_⟩
  · intro s initial f hif hcf
    rw [try_send_frame_fires s initial f hif hcf]
    exact ⟨rfl, rfl⟩
  · intro s cap hf
    cases cap with
    | none => exact ⟨hf, rfl⟩
    | some f => simp [renderTick, hf]
  · intro s hs
    induction hs with
    | refl => rfl
    | tail hab hbc ih => exact appStep_preserves_gate hbc ih

/-- C1 witness: in a concrete in-flight state the dispatch attempt is a
no-op; in a concrete idle state with a frame it sets the flag; the
initial state satisfies the gate invariant. -/
theorem single_flight_gate_witness :
    try_send_frame busyPointState false = busyPointState ∧
    (try_send_frame readyState true).inFlight = true ∧
    initialState.inFlight = initialState.outstanding.isSome :=
  ⟨single_flight_gate.1 busyPointState false rfl,
   (single_flight_gate.2.1 readyState true f640 rfl rfl).1,
   single_flight_gate.2.2.2.2.2 initialState Relation.ReflTransGen.refl⟩

/-- C2: error atomicity.  A dispatch whose Remote Inference Client call
raises `e` sets the status to `Error: e`, leaves both stored result
slots untouched, clears the in-flight flag, and a subsequent dispatch
attempt (given a current frame) proceeds normally. -/
theorem dispatch_error_atomic (s : AppState) (d : Pending)
    (pr : Except String (List PointRec)) (cr : Except String String) (e : String)
    (h : (d.ep = "point" ∧ pr = Except.error e) ∨
      (¬ d.ep = "point" ∧ cr = Except.error e)) :
    (workerStep s d pr cr).status = "Error: " ++ e ∧
    (workerStep s d pr cr).lastPoints = s.lastPoints ∧
    (workerStep s d pr cr).lastCaption = s.lastCaption ∧
    (workerStep s d pr cr).inFlight = false ∧
    (∀ f initial, (workerStep s d pr cr).currentFrame = some f →
      (try_send_frame (workerStep s d pr cr) initial).inFlight = true ∧
      (try_send_frame (workerStep s d pr cr) initial).outstanding =
        some (pendingOf (workerStep s d pr cr).cfg f)) := by
  rw [workerStep_error s d pr cr e h]
  refine ⟨rfl, rfl, rfl, rfl, ?_⟩
  intro f initial hf
  rw [try_send_frame_fires _ initial f rfl hf]
  exact ⟨rfl, rfl⟩

/-- C2 witness: a concrete failing point dispatch from a state that
already stores a point result keeps that result, reports the error and
lets the next attempt fire. -/
theorem dispatch_error_atomic_witness :
    (workerStep busyPointState (pendingOf initialState.cfg f640)
        (Except.error "boom") (Except.error "boom")).lastPoints =
      busyPointState.lastPoints ∧
    (try_send_frame (workerStep busyPointState (pendingOf initialState.cfg f640)
        (Except.error "boom") (Except.error "boom")) false).inFlight = true :=
  ⟨(dispatch_error_atomic busyPointState (pendingOf initialState.cfg f640)
      (Except.error "boom") (Except.error "boom") "boom" (Or.inl ⟨rfl, rfl⟩)).2.1,
   ((dispatch_error_atomic busyPointState (pendingOf initialState.cfg f640)
      (Except.error "boom") (Except.error "boom") "boom" (Or.inl ⟨rfl, rfl⟩)).2.2.2.2
      f640 false rfl).1⟩

/-- C3: intent-snapshot noninterference.  (i) A firing dispatch stores
the snapshot built from the configuration and frame current at the
call.  (ii) UI edits leave the outstanding snapshot untouched, so the
request the worker sends — a function `requestOf` of the snapshot
alone — is unchanged.  (iii) Render ticks during flight leave it
untouched likewise.  (iv) Completion commutes with configuration
edits: the slots, status and flags written by the worker do not depend
on the configuration at completion time. -/
theorem intent_snapshot_noninterference :
    (∀ s f initial, s.inFlight = false → s.currentFrame = some f →
      (try_send_frame s initial).outstanding = some (pendingOf s.cfg f)) ∧
    (∀ s c d, s.outstanding = some d →
      (setConfig s c).outstanding = some d ∧
      Option.map requestOf (setConfig s c).outstanding = some (requestOf d)) ∧
    (∀ s cap, s.inFlight = true →
      (renderTick s cap).1.outstanding = s.outstanding) ∧
    (∀ s c d pr cr,
      workerStep (setConfig s c) d pr cr = setConfig (workerStep s d pr cr) c) := by
  refine ⟨?_, ?_, ?_, ?_⟩
  · intro s f initial hif hcf
    rw [try_send_frame_fires s initial f hif hcf]
  · intro s c d hd
    have h1 : (setConfig s c).outstanding = some d := by simpa [setConfig] using hd
    exact ⟨h1, by rw [h1]; rfl⟩
  · intro s cap hf
    cases cap with
    | none => rfl
    | some f => simp [renderTick, hf]
  · intro s c d pr cr
    by_cases hep : d.ep = "point"
    · cases pr with
      | ok pts =>
          rw [workerStep_point_ok _ d pts cr hep, workerStep_point_ok _ d pts cr hep]
          rfl
      | error e =>
          rw [workerStep_error _ d _ cr e (Or.inl ⟨hep, rfl⟩),
            workerStep_error _ d _ cr e (Or.inl ⟨hep, rfl⟩)]
          rfl
    · cases cr with
      | ok c2 =>
          rw [workerStep_caption_ok _ d pr c2 hep, workerStep_caption_ok _ d pr c2 hep]
          rfl
      | error e =>
          rw [workerStep_error _ d pr _ e (Or.inr ⟨hep, rfl⟩),
            workerStep_error _ d pr _ e (Or.inr ⟨hep, rfl⟩)]
          rfl

/-- C3 witness: in a concrete idle state the fired dispatch stores
exactly the snapshot of the current configuration and frame, and a
concrete UI edit during flight keeps the outstanding snapshot. -/
theorem intent_snapshot_noninterference_witness :
    (try_send_frame readyState false).outstanding =
      some (pendingOf readyState.cfg f640) ∧
    (setConfig busyPointState
        { api := "http://other:1", endpoint := "caption", label := "cat",
          lengthSel := "normal" }).outstanding =
      some (pendingOf initialState.cfg f640) :=
  ⟨intent_snapshot_noninterference.1 readyState f640 false rfl rfl,
   (intent_snapshot_noninterference.2.1 busyPointState
     { api := "http://other:1", endpoint := "caption", label := "cat",
       lengthSel := "normal" } (pendingOf initialState.cfg f640) rfl).1⟩

/-- C7 (counterexample): from a concrete idle state holding a captured
frame, a tick whose capture read fails publishes the status message
but does not invoke `_try_send_frame` at all — no dispatch starts —
even though an attempt would have fired (the last conjunct shows the
attempt is not a no-op in this state). -/
theorem tick_capture_failure_no_send :
    (renderTick readyState none).2 = false ∧
    (renderTick readyState none).1.status = "Camera read failed" ∧
    (renderTick readyState none).1.outstanding = none ∧
    (renderTick readyState none).1.inFlight = false ∧
    try_send_frame readyState false ≠ readyState := by
  refine ⟨rfl, rfl, rfl, rfl, ?_⟩
  intro h
  have h2 : (try_send_frame readyState false).inFlight = readyState.inFlight := by
    rw [h]
  rw [try_send_frame_fires readyState false f640 rfl rfl] at h2
  simp [readyState, initialState] at h2

/-- C7 (amended): a tick with a failed capture read publishes
"Camera read failed" and returns early — the displayed frame, the
stored results, the dispatch state and everything else are unchanged,
and `_try_send_frame` is not invoked; the attempt-to-send step happens
only on ticks with a successful read, and only when the in-flight flag
is clear (the coordinator would refuse anyway while in flight). -/
theorem render_tick_capture_contract (s : AppState) :
    ((renderTick s none).1 = { s with status := "Camera read failed" } ∧
      (renderTick s none).2 = false) ∧
    (∀ f, s.inFlight = false → (renderTick s (some f)).2 = true) ∧
    (∀ f, s.inFlight = true → (renderTick s (some f)).2 = false) := by
  refine ⟨⟨rfl, rfl⟩, ?_, ?_⟩
  · intro f hf
    simp [renderTick, hf]
  · intro f hf
    simp [renderTick, hf]

/-- C7 witness: a successful tick from the concrete idle state does
invoke the dispatch attempt. -/
theorem render_tick_capture_contract_witness :
    (renderTick readyState (some f640)).2 = true :=
  (render_tick_capture_contract readyState).2.1 f640 rfl

/-- C8 (counterexample): rendering in point mode with an empty point
list returns the very input buffer (`_draw_points` line 225-226 skips
the copy), and the unconditional informational note of lines 194-209
is then drawn into that buffer — the input frame object is mutated in
place and no copy is made. -/
theorem render_empty_points_aliases_input :
    (renderAnnotated { bid := 0, ops := [] } 1 "point" (some []) none "human"
      (640, 480)).bid = Buffer.bid { bid := 0, ops := [] } ∧
    (renderAnnotated { bid := 0, ops := [] } 1 "point" (some []) none "human"
      (640, 480)).ops ≠ Buffer.ops { bid := 0, ops := [] } := by
  constructor
  · rfl
  · intro h
    simp [renderAnnotated, draw_points] at h

/-- C8 (amended): in caption mode, and in point mode whenever the point
list is nonempty, the renderer draws into a fresh copy of the frame
(the returned buffer carries the fresh identity, so the input frame's
buffer receives none of the drawing); with an absent or empty point
list, `_draw_points` returns the input frame itself and the subsequent
note drawing mutates it in place. -/
theorem render_copies_frame (frame : Buffer) (freshId : ℕ) (mode : String)
    (points : Option (List PointRec)) (caption : Option String)
    (label : String) (sz : ℕ × ℕ)
    (h : mode ≠ "point" ∨ ∃ p ps, points = some (p :: ps)) :
    (renderAnnotated frame freshId mode points caption label sz).bid = freshId ∧
    (freshId ≠ frame.bid →
      (renderAnnotated frame freshId mode points caption label sz).bid ≠ frame.bid) := by
  have hbid : (renderAnnotated frame freshId mode points caption label sz).bid = freshId := by
    by_cases hm : mode = "point"
    · rcases h with h | ⟨p, ps, rfl⟩
      · exact absurd hm h
      · simp [renderAnnotated, draw_points, hm]
    · simp [renderAnnotated, hm]
  exact ⟨hbid, fun hne => by rw [hbid]; exact hne⟩

/-- C8 witness: point mode with one concrete point draws into the fresh
buffer `1`, not into the input buffer `0`. -/
theorem render_copies_frame_witness :
    (renderAnnotated { bid := 0, ops := [] } 1 "point" (some [halfRec]) none
      "human" (640, 480)).bid = 1 ∧
    (renderAnnotated { bid := 0, ops := [] } 1 "point" (some [halfRec]) none
      "human" (640, 480)).bid ≠ Buffer.bid { bid := 0, ops := [] } :=
  ⟨(render_copies_frame { bid := 0, ops := [] } 1 "point" (some [halfRec]) none
      "human" (640, 480) (Or.inr ⟨halfRec, [], rfl⟩)).1,
   (render_copies_frame { bid := 0, ops := [] } 1 "point" (some [halfRec]) none
      "human" (640, 480) (Or.inr ⟨halfRec, [], rfl⟩)).2 (by simp)⟩

/-- C10: mutual exclusivity of the stored results.  A successful point
dispatch stores the points and clears the caption; a successful
caption dispatch stores the caption and clears the points; and in
every reachable state — in particular after any completed dispatch —
at most one of the two slots is non-`None`. -/
theorem result_slots_mutually_exclusive :
    (∀ s d pts cr, d.ep = "point" →
      (workerStep s d (Except.ok pts) cr).lastPoints = some pts ∧
      (workerStep s d (Except.ok pts) cr).lastCaption = none) ∧
    (∀ s d pr c, ¬ d.ep = "point" →
      (workerStep s d pr (Except.ok c)).lastCaption = some c ∧
      (workerStep s d pr (Except.ok c)).lastPoints = none) ∧
    (∀ s, Reachable s → s.lastPoints = none ∨ s.lastCaption = none) := by
  refine ⟨?_, ?_, ?_⟩
  · intro s d pts cr hep
    rw [workerStep_point_ok s d pts cr hep]
    exact ⟨rfl, rfl⟩
  · intro s d pr c hep
    rw [workerStep_caption_ok s d pr c hep]
    exact ⟨rfl, rfl⟩
  · intro s hs
    induction hs with
    | refl => exact Or.inl rfl
    | tail hab hbc ih => exact appStep_preserves_mutex hbc ih

/-- C10 witness: a concrete successful caption dispatch from a state
holding a point result stores the caption and clears the points, and
the initial state satisfies the exclusivity invariant. -/
theorem result_slots_mutually_exclusive_witness :
    ((workerStep busyPointState capPending (Except.error "x")
        (Except.ok "a cat")).lastCaption = some "a cat" ∧
      (workerStep busyPointState capPending (Except.error "x")
        (Except.ok "a cat")).lastPoints = none) ∧
    (initialState.lastPoints = none ∨ initialState.lastCaption = none) :=
  ⟨result_slots_mutually_exclusive.2.1 busyPointState capPending
      (Except.error "x") "a cat" (by simp [capPending]),
   result_slots_mutually_exclusive.2.2 initialState Relation.ReflTransGen.refl⟩

end LiveApp
